import Mathlib

/-
Verification of the `fsm` chatbot engine of the qontalk repository
(session-scoped rule-based state machine, `Bot.ProcessMessage` and friends),
together with the generic event-driven transition engine (`FSM.SendEvent`).

The definitions below are a shallow embedding of `src/fsm/fsm.go`:

* Go `map[string]V` is modelled as an association list with unique keys
  (`mapGet` / `mapSet` / `mapDel`); a Go map's iteration order is
  unspecified, the list order is the representative order used by folds.
* Go `time.Time` / `time.Duration` are modelled as `Nat` instants and spans;
  `time.Since(t)` at instant `now` is `now - t` (Go's negative spans collapse
  to `0` under `Nat` subtraction, which compares against a timeout the same
  way a negative duration does).
* `regexp.Regexp` is external library code; it is modelled abstractly by the
  two operations the engine uses: `FindStringSubmatch` and `SubexpNames`.
* `strings.ReplaceAll` is re-implemented faithfully over `List Char`
  (left-to-right, non-overlapping, replacement text not rescanned; the
  empty-pattern case inserts the replacement at every position).
* The rule fan-out in `ProcessMessage` launches one goroutine per rule,
  all mutating the same session under the Bot-level lock and pushing their
  responses onto a shared channel; the embedding determinizes this to the
  registration-order schedule (rules evaluated sequentially in list order),
  which is one admissible interleaving of the source.
* Listener functions and the error logger are host-supplied side effects;
  their invocations are recorded as an event trace (`BotEvent`), and a Go
  `nil` check is modelled by whether the listener/logger is registered.
* A Go `nil`-pointer dereference panic is modelled by returning `none`.
-/

namespace QontalkFsm

/-- Association-list model of a Go `map[string]V`: lookup returns the first
binding of the key. -/
def mapGet {α : Type} : List (String × α) → String → Option α
  | [], _ => none
  | (k, v) :: rest, key => if k = key then some v else mapGet rest key

/-- Go map assignment `m[key] = val`: update in place, or append a fresh key. -/
def mapSet {α : Type} : List (String × α) → String → α → List (String × α)
  | [], key, val => [(key, val)]
  | (k, v) :: rest, key, val =>
    if k = key then (key, val) :: rest else (k, v) :: mapSet rest key val

/-- Go `delete(m, key)`. -/
def mapDel {α : Type} (m : List (String × α)) (key : String) : List (String × α) :=
  m.filter (fun p => p.1 != key)

/-- Recursion core of Go `strings.ReplaceAll` for a non-empty pattern:
left-to-right scan, non-overlapping matches, replacement text not rescanned.
The fuel argument (instantiated with the length of the subject) keeps the
recursion structural; one unit of fuel is spent per consumed character, and a
match consumes at least one character, so the fuel never runs out when
initialized to the subject's length. -/
def replaceAllAux (old new : List Char) : Nat → List Char → List Char
  | _, [] => []
  | 0, s => s
  | fuel + 1, c :: rest =>
    if old.isPrefixOf (c :: rest) then
      new ++ replaceAllAux old new fuel ((c :: rest).drop old.length)
    else
      c :: replaceAllAux old new fuel rest

/-- Go `strings.ReplaceAll(s, old, new)`.  With an empty `old`, Go inserts
`new` before every character and at the end. -/
def goReplaceAll (s old new : String) : String :=
  if old.data.isEmpty then
    String.mk (new.data ++ s.data.flatMap (fun c => c :: new.data))
  else
    String.mk (replaceAllAux old.data new.data s.data.length s.data)

/-- The `fmt.Sprintf("{{%s}}", name)` placeholder for a session variable. -/
def placeholderFor (name : String) : String := "\x7b\x7b" ++ name ++ "\x7d\x7d"

/-- The `fmt.Sprintf("{{bot.%s}}", name)` placeholder for a global bot variable. -/
def botPlaceholderFor (name : String) : String :=
  "\x7b\x7b" ++ "bot." ++ name ++ "\x7d\x7d"

/-- `VariableMap` of `fsm.go`: a map of string variables. -/
abbrev VariableMap := List (String × String)

/-- `Bot.replaceVariables` of `fsm.go`: replace session variables first, then
global bot variables, purely textually.  `globalVars` stands for the receiver
field `b.GlobalVars`. -/
def replaceVariables (globalVars : VariableMap) (text : String) (vars : VariableMap) : String :=
  let afterSession :=
    vars.foldl (fun t p => goReplaceAll t (placeholderFor p.1) p.2) text
  globalVars.foldl (fun t p => goReplaceAll t (botPlaceholderFor p.1) p.2) afterSession

/-- Abstract model of a compiled `regexp.Regexp`, reduced to the two
operations the engine calls on it. `findStringSubmatch` returns, on a match,
the whole match at index 0 followed by the submatches, mirroring
`FindStringSubmatch`; `subexpNames` mirrors `SubexpNames` (index 0 is always
the unnamed whole-match entry). -/
structure Regexp where
  subexpNames : List String
  findStringSubmatch : String → Option (List String)

/-- `Transition` of `fsm.go`. -/
structure Transition where
  event : String
  target : String
deriving DecidableEq

/-- `CustomError` of `fsm.go`; a Go `error` value is represented by the string
its `Error()` method returns, which is all the engine ever consumes. -/
structure CustomError where
  errorMsg : String
  respond : String

/-- `SetVariableAction` of `fsm.go`. -/
structure SetVariableAction where
  name : String
  value : String

/-- `Action` of `fsm.go`: `SetVariable` is a possibly-nil pointer. -/
structure Action where
  setVariable : Option SetVariableAction

/-- `Rule` of `fsm.go`. -/
structure Rule where
  name : String
  pattern : Regexp
  respond : String
  actions : List Action
  errorRules : List CustomError

/-- `FsmState` of `fsm.go`. -/
structure FsmState where
  name : String
  entryMessage : String
  transitions : List Transition
  rules : List Rule

/-- `UserSession` of `fsm.go`.  `errorRulesState` is `nil` (`none`) until
`ProcessError` first populates it.  The `ErrorRulesChan` side channel only
matters when `ProcessError` runs concurrently with `ProcessMessage`; within a
single `ProcessMessage` call the draining goroutine observes no traffic, so
the channel has no footprint in the embedding. -/
structure UserSession where
  sessionVars : VariableMap
  sessionState : String
  lastActive : Nat
  errorRulesState : Option (List (String × List String))

/-- `Bot` of `fsm.go`.  Listener maps record which state/rule names have a
registered listener (the listener bodies are host side effects, observed via
the event trace); `errorLoggerSet` records whether `ErrorLogger != nil`. -/
structure Bot where
  name : String
  currentState : String
  userSessions : List (String × UserSession)
  fsmStates : List (String × FsmState)
  globalVars : VariableMap
  stateListeners : List String
  ruleListeners : List String
  sessionTimeout : Nat
  sessionCleanup : Nat
  concurrentAccess : Bool
  errorLoggerSet : Bool

/-- Observable side effects of one engine call: error-logger invocations and
state/rule listener notifications. -/
inductive BotEvent where
  | errorLogged (msg : String)
  | stateListener (stateName userID message : String)
  | ruleListener (ruleName userID message : String)
deriving DecidableEq

/-- `Bot.handleError` of `fsm.go`: formats and forwards the diagnostic to the
error logger when one is configured. -/
def handleErrorEvents (b : Bot) (errorMessage userID : String) : List BotEvent :=
  if b.errorLoggerSet then
    [BotEvent.errorLogged ("error for user " ++ userID ++ ": " ++ errorMessage)]
  else []

/-- `Bot.handleStateListener` of `fsm.go`. -/
def stateListenerEvents (b : Bot) (stateName userID message : String) : List BotEvent :=
  if b.stateListeners.contains stateName then
    [BotEvent.stateListener stateName userID message]
  else []

/-- `Bot.handleRuleListener` of `fsm.go`. -/
def ruleListenerEvents (b : Bot) (ruleName userID message : String) : List BotEvent :=
  if b.ruleListeners.contains ruleName then
    [BotEvent.ruleListener ruleName userID message]
  else []

/-- `NewBot` of `fsm.go` with no options applied (the session-cleanup
goroutine it spawns is modelled separately by `cleanupSessions`). -/
def newBot (name : String) : Bot :=
  { name := name
    currentState := "start"
    userSessions := []
    fsmStates := []
    globalVars := []
    stateListeners := []
    ruleListeners := []
    sessionTimeout := 30 * 60
    sessionCleanup := 60 * 60
    concurrentAccess := false
    errorLoggerSet := false }

/-- `WithSessionCleanup` option. -/
def withSessionCleanup (interval : Nat) (b : Bot) : Bot :=
  { b with sessionCleanup := interval }

/-- `WithSessionTimeout` option. -/
def withSessionTimeout (interval : Nat) (b : Bot) : Bot :=
  { b with sessionTimeout := interval }

/-- `Bot.AddState` of `fsm.go` (a fresh state has the zero value `nil` rule list). -/
def addState (b : Bot) (name entryMessage : String) (transitions : List Transition) : Bot :=
  let state : FsmState :=
    { name := name, entryMessage := entryMessage, transitions := transitions, rules := [] }
  { b with fsmStates := mapSet b.fsmStates name state }

/-- Error outcomes of `Bot.AddRuleToState`: the error returned by
`regexp.Compile`, or the `fmt.Errorf("state %s not found", ...)` error. -/
inductive AddRuleError where
  | invalidPattern (e : String)
  | stateNotFound (stateName : String)
deriving DecidableEq

/-- `Bot.AddRuleToState` of `fsm.go`.  `compile` stands for the external
`regexp.Compile`; the pattern is compiled first, then the state is resolved,
and on success the rule is appended to the end of the state's rule list.
(The Go `if errorRules != nil` guard is the identity here because a `nil`
slice and the empty list are indistinguishable to the engine.) -/
def addRuleToState (compile : String → Except String Regexp) (b : Bot)
    (stateName name pattern respond : String)
    (actions : List Action) (errorRules : List CustomError) : Except AddRuleError Bot :=
  match compile pattern with
  | Except.error e => Except.error (AddRuleError.invalidPattern e)
  | Except.ok re =>
    let rule : Rule :=
      { name := name, pattern := re, respond := respond
        actions := actions, errorRules := errorRules }
    match mapGet b.fsmStates stateName with
    | none => Except.error (AddRuleError.stateNotFound stateName)
    | some state =>
      let state' : FsmState := { state with rules := state.rules ++ [rule] }
      Except.ok { b with fsmStates := mapSet b.fsmStates stateName state' }

/-- The session-variable updates of one matched rule: the loop over
`SubexpNames` binding named capture groups (Go indexes the submatch slice by
the group index; the library guarantees the slice and the name list have equal
length, so the default of `getD` is never consulted). `i` is the running Go
loop index. -/
def bindGroups (ms : List String) : Nat → List String → VariableMap → VariableMap
  | _, [], vars => vars
  | i, n :: ns, vars =>
    bindGroups ms (i + 1) ns
      (if i > 0 ∧ n ≠ "" then mapSet vars n (ms.getD i "") else vars)

/-- The `SetVariable` action loop of a matched rule: copy the session value at
the source name (`Value`) to the destination name (`Name`) when the source
exists. -/
def runActions (actions : List Action) (vars : VariableMap) : VariableMap :=
  actions.foldl
    (fun vs a =>
      match a.setVariable with
      | some sv =>
        match mapGet vs sv.value with
        | some v => mapSet vs sv.name v
        | none => vs
      | none => vs)
    vars

/-- Accumulated effect of the rule fan-out of `ProcessMessage`: the shared
session fields mutated by the rule goroutines, the responses pushed on
`respChan`, the listener/error events, and the `foundValidRule` flag. -/
structure RuleEvalState where
  vars : VariableMap
  errState : Option (List (String × List String))
  responses : List String
  events : List BotEvent
  found : Bool

/-- Body of one rule goroutine of `ProcessMessage` (lines 385-425 of
`fsm.go`): match, bind named groups, run actions, render the response, notify
listeners, then either divert to a flagged error rule (clearing the flag) or
push the rendered response. -/
def evalRule (b : Bot) (stateName userID message : String)
    (st : RuleEvalState) (rule : Rule) : RuleEvalState :=
  match rule.pattern.findStringSubmatch message with
  | none => st
  | some m =>
    let vars := bindGroups m 0 rule.pattern.subexpNames st.vars
    let vars := runActions rule.actions vars
    let respond := replaceVariables b.globalVars rule.respond vars
    let listenerEvts :=
      stateListenerEvents b stateName userID message ++
      ruleListenerEvents b rule.name userID message
    match rule.errorRules.find? (fun er =>
        match st.errState with
        | some es => ((mapGet es stateName).getD []).contains er.errorMsg
        | none => false) with
    | some er =>
      { vars := vars
        errState := (st.errState.map (fun es => mapDel es stateName))
        responses := st.responses ++ [er.respond]
        events := st.events ++ listenerEvts ++ handleErrorEvents b er.respond userID
        found := true }
    | none =>
      { vars := vars
        errState := st.errState
        responses := st.responses ++ [respond]
        events := st.events ++ listenerEvts
        found := true }

/-- Result of one `ProcessMessage` call: the returned `(response, err)` pair,
the Bot state after the call, and the emitted side-effect events. -/
structure PMResult where
  response : String
  err : Option String
  bot : Bot
  events : List BotEvent

/-- Transition branch of `ProcessMessage` (lines 359-372 of `fsm.go`): move
the session (and the Bot-level `CurrentState`) to the target, re-resolve the
state, render its entry message, and notify the new state's listener.  Go
dereferences the re-resolved state without a nil check, so a target missing
from `FsmStates` panics (`none`). -/
def pmTransition (b : Bot) (userID message : String) (session : UserSession)
    (transition : Transition) : Option PMResult :=
  let newStateName := if transition.target = "start" then "start" else transition.target
  let session := { session with sessionState := newStateName }
  let b := { b with currentState := newStateName }
  match mapGet b.fsmStates b.currentState with
  | none => none
  | some newState =>
    let entryMessage := replaceVariables b.globalVars newState.entryMessage session.sessionVars
    some { response := entryMessage
           err := none
           bot := { b with userSessions := mapSet b.userSessions userID session }
           events := stateListenerEvents b newState.name userID message }

/-- Rule-evaluation tail of `ProcessMessage` (lines 374-449 of `fsm.go`),
determinized to the registration-order schedule: fold the rule bodies in list
order, then return the last collected response, or — when nothing matched —
log the "No valid rule found" diagnostic and return the re-rendered entry
message of the current state. -/
def pmRules (b : Bot) (userID message : String) (session : UserSession)
    (state : FsmState) : Option PMResult :=
  let st := state.rules.foldl (evalRule b state.name userID message)
    { vars := session.sessionVars, errState := session.errorRulesState
      responses := [], events := [], found := false }
  let session := { session with sessionVars := st.vars, errorRulesState := st.errState }
  match st.responses.getLast? with
  | some r =>
    some { response := r
           err := none
           bot := { b with userSessions := mapSet b.userSessions userID session }
           events := st.events }
  | none =>
    let diag := if st.found then [] else handleErrorEvents b "No valid rule found" userID
    let entryMessage := replaceVariables b.globalVars state.entryMessage session.sessionVars
    some { response := entryMessage
           err := none
           bot := { b with userSessions := mapSet b.userSessions userID session }
           events := st.events ++ diag ++ stateListenerEvents b state.name userID message }

/-- Middle of `ProcessMessage`: scan the state's transitions in registration
order for a literal event match; rules are only consulted when no transition
event equals the message. -/
def pmInState (b : Bot) (userID message : String) (session : UserSession)
    (state : FsmState) : Option PMResult :=
  match state.transitions.find? (fun t => t.event == message) with
  | some transition => pmTransition b userID message session transition
  | none => pmRules b userID message session state

/-- `ProcessMessage` after the session has been looked up or created: stamp
`LastActive`, resolve the session's state (reporting "State not found" when it
is missing), then dispatch. -/
def pmWithSession (b : Bot) (userID message : String) (now : Nat)
    (session0 : UserSession) : Option PMResult :=
  let session := { session0 with lastActive := now }
  match mapGet b.fsmStates session.sessionState with
  | none =>
    some { response := "State not found"
           err := none
           bot := { b with userSessions := mapSet b.userSessions userID session }
           events := handleErrorEvents b "State not found" userID }
  | some state => pmInState b userID message session state

/-- The zero-value session created lazily for a first-time user (lines 325-329
of `fsm.go`): empty variables, current state copied from the Bot-level
`CurrentState` field. -/
def freshSession (b : Bot) : UserSession :=
  { sessionVars := [], sessionState := b.currentState
    lastActive := 0, errorRulesState := none }

/-- `Bot.ProcessMessage` of `fsm.go`.  `now` is the instant `time.Now()`
observes.  The result is `none` exactly when the Go code panics (nil state
dereference after a transition to an unregistered target). -/
def processMessage (b : Bot) (userID message : String) (now : Nat) : Option PMResult :=
  match mapGet b.userSessions userID with
  | some s => pmWithSession b userID message now s
  | none =>
    let s := freshSession b
    pmWithSession { b with userSessions := mapSet b.userSessions userID s }
      userID message now s

/-- One wakeup of the cleanup loop of `Bot.cleanupSessions` (lines 198-204 of
`fsm.go`): under the exclusive lock, delete every session whose inactivity
span exceeds the timeout. -/
def cleanupTick (b : Bot) (now : Nat) : Bot :=
  { b with userSessions :=
      b.userSessions.filter (fun p => ! decide (now - p.2.lastActive > b.sessionTimeout)) }

/-- A wakeup of the `select` in `cleanupSessions`: either the
`time.After(b.SessionCleanup)` timer fires at instant `now`, or the
`stopCleanup` channel (closed by `Bot.Stop`) fires. -/
inductive CleanupEvent where
  | tick (now : Nat)
  | stop

/-- `Bot.cleanupSessions` of `fsm.go`, driven by a trace of wakeups: sweep on
every timer tick, return at the first stop signal. -/
def cleanupSessions (b : Bot) : List CleanupEvent → Bot
  | [] => b
  | CleanupEvent.tick now :: rest => cleanupSessions (cleanupTick b now) rest
  | CleanupEvent.stop :: _ => b

/-! ### Helper lemmas about the map model -/

theorem mapGet_mapSet_self {α : Type} (m : List (String × α)) (k : String) (v : α) :
    mapGet (mapSet m k v) k = some v := by
  induction m with
  | nil => simp [mapSet, mapGet]
  | cons p rest ih =>
    obtain ⟨pk, pv⟩ := p
    by_cases h : pk = k <;> simp [mapSet, mapGet, h, ih]

theorem mapGet_mapSet_ne {α : Type} (m : List (String × α)) (k k' : String) (v : α)
    (h : k' ≠ k) : mapGet (mapSet m k v) k' = mapGet m k' := by
  have h' : ¬ k = k' := fun e => h e.symm
  induction m with
  | nil => simp [mapSet, mapGet, h']
  | cons p rest ih =>
    obtain ⟨pk, pv⟩ := p
    by_cases hk : pk = k
    · subst hk; simp [mapSet, mapGet, h']
    · simp [mapSet, mapGet, hk, ih]

/-! ### Helper lemmas about named-capture-group binding -/

theorem bindGroups_not_mem (ms : List String) (name : String) :
    ∀ (k : Nat) (ns : List String) (vars : VariableMap), name ∉ ns →
      mapGet (bindGroups ms k ns vars) name = mapGet vars name := by
  intro k ns
  induction ns generalizing k with
  | nil => intro vars _; rfl
  | cons n ns ih =>
    intro vars h
    have hn : n ≠ name := fun e => h (e ▸ List.mem_cons_self n ns)
    have hns : name ∉ ns := fun e => h (List.mem_cons_of_mem n e)
    rw [bindGroups, ih (k + 1) _ hns]
    split
    · exact mapGet_mapSet_ne vars n name _ (Ne.symm hn)
    · rfl

theorem bindGroups_get (ms : List String) (name : String) :
    ∀ (k i : Nat) (ns : List String) (vars : VariableMap),
      ns.get? i = some name → name ≠ "" → 0 < k + i →
      (∀ j, i < j → ns.get? j ≠ some name) →
      mapGet (bindGroups ms k ns vars) name = some (ms.getD (k + i) "") := by
  intro k i ns
  induction ns generalizing k i with
  | nil => intro vars hi; simp at hi
  | cons n ns ih =>
    intro vars hi hne hpos hlast
    cases i with
    | zero =>
      have hn : n = name := by simpa using hi
      subst hn
      have hk : 0 < k := by simpa using hpos
      have hnot : n ∉ ns := by
        intro hmem
        obtain ⟨j, hj⟩ := List.get?_of_mem hmem
        exact hlast (j + 1) (Nat.succ_pos j) (by simpa using hj)
      rw [bindGroups, if_pos ⟨hk, hne⟩, bindGroups_not_mem ms n (k + 1) ns _ hnot,
        mapGet_mapSet_self]
      simp
    | succ i' =>
      have hi' : ns.get? i' = some name := by simpa using hi
      have hlast' : ∀ j, i' < j → ns.get? j ≠ some name := by
        intro j hj
        have := hlast (j + 1) (Nat.succ_lt_succ hj)
        simpa using this
      rw [bindGroups]
      have h2 := ih (k + 1) i'
        (if k > 0 ∧ n ≠ "" then mapSet vars n (ms.getD k "") else vars)
        hi' hne (by omega) hlast'
      have hidx : k + 1 + i' = k + (i' + 1) := by omega
      rw [hidx] at h2
      exact h2

/-! ### Helper lemmas about the `strings.ReplaceAll` model -/

/-- Substring occurrence check used to state the "unresolved placeholders are
left verbatim" property. -/
def containsSub : List Char → List Char → Bool
  | [], pat => pat.isEmpty
  | c :: rest, pat => pat.isPrefixOf (c :: rest) || containsSub rest pat

theorem isPrefixOf_self (l : List Char) : l.isPrefixOf l = true := by
  induction l with
  | nil => rfl
  | cons c rest ih => simp [List.isPrefixOf, ih]

theorem replaceAllAux_nil (old new : List Char) (fuel : Nat) :
    replaceAllAux old new fuel [] = [] := by
  cases fuel <;> rfl

theorem replaceAllAux_of_not_contains (old new : List Char) :
    ∀ (fuel : Nat) (s : List Char), containsSub s old = false →
      replaceAllAux old new fuel s = s := by
  intro fuel
  induction fuel with
  | zero => intro s _; cases s <;> rfl
  | succ fuel ih =>
    intro s h
    cases s with
    | nil => rfl
    | cons c rest =>
      rw [containsSub, Bool.or_eq_false_iff] at h
      rw [replaceAllAux, if_neg (by simp [h.1]), ih rest h.2]

theorem containsSub_false_ne_nil {s old : List Char} (h : containsSub s old = false) :
    old ≠ [] := by
  intro he
  subst he
  cases s <;> simp [containsSub, List.isPrefixOf] at h

theorem goReplaceAll_of_not_contains (s old new : String)
    (h : containsSub s.data old.data = false) : goReplaceAll s old new = s := by
  have hne : old.data ≠ [] := containsSub_false_ne_nil h
  rw [goReplaceAll, if_neg (by simp [hne]), replaceAllAux_of_not_contains _ _ _ _ h]

theorem goReplaceAll_self (s new : String) (h : s.data ≠ []) :
    goReplaceAll s s new = new := by
  rw [goReplaceAll, if_neg (by simp [h])]
  obtain ⟨c, rest, hdata⟩ : ∃ c rest, s.data = c :: rest := by
    cases hs : s.data with
    | nil => exact absurd hs h
    | cons c rest => exact ⟨c, rest, rfl⟩
  rw [hdata]
  rw [show (c :: rest).length = rest.length + 1 from rfl, replaceAllAux,
    if_pos (isPrefixOf_self _)]
  rw [show ((c :: rest).drop (c :: rest).length) = [] from List.drop_length _]
  rw [replaceAllAux_nil, List.append_nil]

theorem foldl_replaceAll_of_not_contains (ph : String → String) :
    ∀ (l : VariableMap) (t : String),
      (∀ p ∈ l, containsSub t.data (ph p.1).data = false) →
      l.foldl (fun acc p => goReplaceAll acc (ph p.1) p.2) t = t := by
  intro l
  induction l with
  | nil => intro t _; rfl
  | cons p ps ih =>
    intro t h
    have h0 : goReplaceAll t (ph p.1) p.2 = t :=
      goReplaceAll_of_not_contains _ _ _ (h p (List.mem_cons_self _ _))
    rw [List.foldl_cons, h0]
    exact ih t (fun q hq => h q (List.mem_cons_of_mem _ hq))

theorem placeholderFor_data_ne_nil (n : String) : (placeholderFor n).data ≠ [] := by
  simp [placeholderFor, String.data_append]

/-! ### Observation helpers for `ProcessMessage` results -/

/-- The returned response of a `ProcessMessage` call. -/
def pmResponse (o : Option PMResult) : Option String := o.map PMResult.response

/-- The returned Go `error` of a `ProcessMessage` call. -/
def pmErr (o : Option PMResult) : Option (Option String) := o.map PMResult.err

/-- The side-effect events of a `ProcessMessage` call. -/
def pmEvents (o : Option PMResult) : Option (List BotEvent) := o.map PMResult.events

/-- The stored session of a user after a `ProcessMessage` call. -/
def pmSession (o : Option PMResult) (userID : String) : Option UserSession :=
  o.bind (fun r => mapGet r.bot.userSessions userID)

/-- Chain a second `ProcessMessage` call on the Bot state left by a first one. -/
def pmNext (o : Option PMResult) (userID message : String) (now : Nat) : Option PMResult :=
  o.bind (fun r => processMessage r.bot userID message now)

/-! ### Claim theorems -/

/-- C5: template rendering is purely textual: `replaceVariables` first
replaces each session-variable placeholder, then each `bot.`-prefixed global
placeholder; a placeholder whose variable does not exist is left verbatim (the
first conjunct: a text containing no placeholder of any existing variable is
returned unchanged — in particular, with no variables at all every text is
returned verbatim), and no error is produced (the function returns a plain
string on every input).  The second conjunct shows an existing session
variable's placeholder being substituted; the third shows the session pass
running before the global pass: a session variable named `bot.x` consumes the
`{\x7bbot.x}\x7d` placeholder before the global pass can see it. -/
theorem replaceVariables_textual_substitution :
    (∀ (text : String) (vars globalVars : VariableMap),
        (∀ p ∈ vars, containsSub text.data (placeholderFor p.1).data = false) →
        (∀ p ∈ globalVars, containsSub text.data (botPlaceholderFor p.1).data = false) →
        replaceVariables globalVars text vars = text) ∧
    (∀ (n v : String), replaceVariables [] (placeholderFor n) [(n, v)] = v) ∧
    (∀ (v w : String), containsSub v.data (botPlaceholderFor "x").data = false →
        replaceVariables [("x", w)] (botPlaceholderFor "x") [("bot.x", v)] = v) := by
  refine ⟨?_, ?_, ?_⟩
  · intro text vars globalVars h1 h2
    unfold replaceVariables
    rw [foldl_replaceAll_of_not_contains placeholderFor vars text h1]
    exact foldl_replaceAll_of_not_contains botPlaceholderFor globalVars text h2
  · intro n v
    unfold replaceVariables
    simp only [List.foldl_cons, List.foldl_nil]
    exact goReplaceAll_self _ _ (placeholderFor_data_ne_nil n)
  · intro v w h
    unfold replaceVariables
    simp only [List.foldl_cons, List.foldl_nil]
    have h1 : placeholderFor "bot.x" = botPlaceholderFor "x" := by decide
    rw [h1, goReplaceAll_self _ _ (by decide)]
    exact goReplaceAll_of_not_contains v _ w h

/-- C5 witness: the theorem applied at concrete inputs — an unresolved
placeholder is left verbatim, an existing variable is substituted, and the
session pass precedes the global pass. -/
theorem replaceVariables_textual_substitution_witness :
    (∀ p ∈ [("name", "Ann")], containsSub "Hi there".data (placeholderFor p.1).data = false) ∧
    replaceVariables [] "Hi there" [("name", "Ann")] = "Hi there" ∧
    replaceVariables [] (placeholderFor "n") [("n", "V")] = "V" ∧
    replaceVariables [("x", "GLOB")] (botPlaceholderFor "x") [("bot.x", "SESS")] = "SESS" := by
  refine ⟨by decide, ?_, ?_, ?_⟩
  · exact replaceVariables_textual_substitution.1 "Hi there" [("name", "Ann")] []
      (by decide) (by decide)
  · exact replaceVariables_textual_substitution.2.1 "n" "V"
  · exact replaceVariables_textual_substitution.2.2 "SESS" "GLOB" (by decide)

/-- C3: when the session's current state name is missing from the Bot's state
mapping, `ProcessMessage` reports the `State not found` condition through the
error-logger collaborator (when one is configured), does not panic (the call
returns), returns a `nil` Go error, and still produces a best-effort
response. -/
theorem processMessage_state_not_found
    (b : Bot) (userID message : String) (now : Nat) (s : UserSession)
    (hs : mapGet b.userSessions userID = some s)
    (hmiss : mapGet b.fsmStates s.sessionState = none) :
    pmResponse (processMessage b userID message now) = some "State not found" ∧
    pmErr (processMessage b userID message now) = some none ∧
    pmEvents (processMessage b userID message now) =
      some (handleErrorEvents b "State not found" userID) ∧
    (b.errorLoggerSet = true →
      pmEvents (processMessage b userID message now) =
        some [BotEvent.errorLogged ("error for user " ++ userID ++ ": " ++ "State not found")]) := by
  refine ⟨?_, ?_, ?_, ?_⟩ <;>
    simp [processMessage, pmWithSession, pmResponse, pmErr, pmEvents, hs, hmiss,
      handleErrorEvents]

/-- Concrete Bot for the C3 witness: one user parked in a state name that is
missing from the state mapping, error logger configured. -/
def c3Bot : Bot :=
  { newBot "nf" with
      userSessions := [("u", { sessionVars := [], sessionState := "ghost"
                               lastActive := 0, errorRulesState := none })]
      errorLoggerSet := true }

/-- C3 witness: the state-not-found theorem applied at a concrete Bot. -/
theorem processMessage_state_not_found_witness :
    mapGet c3Bot.fsmStates "ghost" = none ∧
    pmResponse (processMessage c3Bot "u" "hello" 7) = some "State not found" ∧
    pmEvents (processMessage c3Bot "u" "hello" 7) =
      some [BotEvent.errorLogged ("error for user " ++ "u" ++ ": " ++ "State not found")] := by
  refine ⟨rfl, ?_, ?_⟩
  · exact (processMessage_state_not_found c3Bot "u" "hello" 7
      { sessionVars := [], sessionState := "ghost", lastActive := 0, errorRulesState := none }
      rfl rfl).1
  · exact (processMessage_state_not_found c3Bot "u" "hello" 7
      { sessionVars := [], sessionState := "ghost", lastActive := 0, errorRulesState := none }
      rfl rfl).2.2.2 rfl

/-- C1: transition precedence.  When the session's current state registers a
literal transition on event `event` targeting `target` (the first transition
whose event equals the message), `ProcessMessage` with exactly that message
moves the user's session to `target` and returns `target`'s entry message with
the session variables substituted — for every rule list of the current state
(`state.rules` is universally quantified here, so the conclusion holds
regardless of any rule whose pattern also matches the message; the message
never reaches rule evaluation). -/
theorem processMessage_transition_precedence
    (b : Bot) (userID event target : String) (now : Nat) (s : UserSession)
    (state tstate : FsmState)
    (hs : mapGet b.userSessions userID = some s)
    (hstate : mapGet b.fsmStates s.sessionState = some state)
    (hfind : state.transitions.find? (fun t => t.event == event) =
      some { event := event, target := target })
    (ht : mapGet b.fsmStates target = some tstate) :
    pmResponse (processMessage b userID event now) =
      some (replaceVariables b.globalVars tstate.entryMessage s.sessionVars) ∧
    pmErr (processMessage b userID event now) = some none ∧
    pmSession (processMessage b userID event now) userID =
      some { s with sessionState := target, lastActive := now } := by
  have hif : (if target = "start" then "start" else target) = target := by
    split <;> simp_all
  refine ⟨?_, ?_, ?_⟩ <;>
    simp [processMessage, pmWithSession, pmInState, pmTransition, pmResponse, pmErr,
      pmSession, hs, hstate, hfind, hif, ht, mapGet_mapSet_self]

/-- Concrete Bot for the C1 witness: state `start` has a transition `go →
other` and also a rule whose pattern matches the literal message `go`; the
transition wins. -/
def c1Bot : Bot :=
  let b := addState (addState (newBot "w1") "start" "WelcomeEntry"
    [{ event := "go", target := "other" }]) "other" "OtherEntry" []
  let matchAllGo : Regexp :=
    { subexpNames := [""], findStringSubmatch := fun msg => if msg = "go" then some [msg] else none }
  let b := { b with userSessions := [("u", { sessionVars := [("name", "Ann")]
                                             sessionState := "start"
                                             lastActive := 0, errorRulesState := none })] }
  match addRuleToState (fun _ => Except.ok matchAllGo) b "start" "greedy" "go" "RuleWon" [] [] with
  | Except.ok b' => b'
  | Except.error _ => b

/-- C1 witness: the transition-precedence theorem applied at a concrete Bot
whose current state also holds a rule matching the transition event. -/
theorem processMessage_transition_precedence_witness :
    (mapGet c1Bot.userSessions "u" =
      some { sessionVars := [("name", "Ann")], sessionState := "start"
             lastActive := 0, errorRulesState := none }) ∧
    pmResponse (processMessage c1Bot "u" "go" 9) =
      some (replaceVariables c1Bot.globalVars "OtherEntry" [("name", "Ann")]) ∧
    pmErr (processMessage c1Bot "u" "go" 9) = some none := by
  have h := processMessage_transition_precedence c1Bot "u" "go" "other" 9
    { sessionVars := [("name", "Ann")], sessionState := "start"
      lastActive := 0, errorRulesState := none }
    ((c1Bot.fsmStates.head?.map Prod.snd).getD
      { name := "", entryMessage := "", transitions := [], rules := [] })
    { name := "other", entryMessage := "OtherEntry", transitions := [], rules := [] }
    rfl rfl rfl rfl
  exact ⟨rfl, h.1, h.2.1⟩

/-- C7: self-loop idempotence.  When the current state's `exit` transition
targets the state itself, two successive `ProcessMessage(user, "exit")` calls
both return that state's entry message rendered with the session's variables,
and the session variable map after both calls is exactly the one from before
the first call — taking a transition never clears or alters session
variables. -/
theorem processMessage_exit_selfloop
    (b : Bot) (userID : String) (n1 n2 : Nat) (s : UserSession) (state : FsmState)
    (hs : mapGet b.userSessions userID = some s)
    (hstate : mapGet b.fsmStates s.sessionState = some state)
    (hfind : state.transitions.find? (fun t => t.event == "exit") =
      some { event := "exit", target := s.sessionState }) :
    pmResponse (processMessage b userID "exit" n1) =
      some (replaceVariables b.globalVars state.entryMessage s.sessionVars) ∧
    pmResponse (pmNext (processMessage b userID "exit" n1) userID "exit" n2) =
      some (replaceVariables b.globalVars state.entryMessage s.sessionVars) ∧
    pmSession (pmNext (processMessage b userID "exit" n1) userID "exit" n2) userID =
      some { s with lastActive := n2 } := by
  have hif : (if s.sessionState = "start" then "start" else s.sessionState) = s.sessionState := by
    split <;> simp_all
  refine ⟨?_, ?_, ?_⟩ <;>
    simp [processMessage, pmWithSession, pmInState, pmTransition, pmResponse, pmNext,
      pmSession, hs, hstate, hfind, hif, mapGet_mapSet_self]

/-- Concrete Bot for the C7 witness: state `loop` with an `exit` self-loop and
a pre-existing session variable. -/
def c7Bot : Bot :=
  let b := addState (newBot "w7") "loop" "LoopEntry" [{ event := "exit", target := "loop" }]
  { b with userSessions := [("u", { sessionVars := [("k", "v")], sessionState := "loop"
                                    lastActive := 0, errorRulesState := none })] }

/-- C7 witness: the self-loop theorem applied at a concrete Bot; both calls
answer the entry message and the session variable survives. -/
theorem processMessage_exit_selfloop_witness :
    (mapGet c7Bot.userSessions "u" =
      some { sessionVars := [("k", "v")], sessionState := "loop"
             lastActive := 0, errorRulesState := none }) ∧
    pmResponse (processMessage c7Bot "u" "exit" 1) =
      some (replaceVariables c7Bot.globalVars "LoopEntry" [("k", "v")]) ∧
    pmSession (pmNext (processMessage c7Bot "u" "exit" 1) "u" "exit" 2) "u" =
      some { sessionVars := [("k", "v")], sessionState := "loop"
             lastActive := 2, errorRulesState := none } := by
  have h := processMessage_exit_selfloop c7Bot "u" 1 2
    { sessionVars := [("k", "v")], sessionState := "loop"
      lastActive := 0, errorRulesState := none }
    { name := "loop", entryMessage := "LoopEntry"
      transitions := [{ event := "exit", target := "loop" }], rules := [] }
    rfl rfl rfl
  exact ⟨rfl, h.1, h.2.2⟩

/-- C2 (amended): a first message from an unknown user lazily creates a
session initialized to the Bot-level `CurrentState` field — the value the
field holds at the time of the call, not necessarily the state configured at
construction — and stamps its `lastActive` to the current time.  (Stated for
messages that do not themselves fire a transition, which would immediately
move the fresh session on.) -/
theorem processMessage_fresh_session
    (b : Bot) (userID message : String) (now : Nat)
    (hnew : mapGet b.userSessions userID = none)
    (hnt : ∀ state, mapGet b.fsmStates b.currentState = some state →
      state.transitions.find? (fun t => t.event == message) = none) :
    (pmSession (processMessage b userID message now) userID).map UserSession.sessionState =
      some b.currentState ∧
    (pmSession (processMessage b userID message now) userID).map UserSession.lastActive =
      some now := by
  cases hsf : mapGet b.fsmStates b.currentState with
  | none =>
    constructor <;>
      simp [processMessage, pmWithSession, pmSession, freshSession, hnew, hsf,
        mapGet_mapSet_self]
  | some state =>
    have hn := hnt state hsf
    constructor <;>
      · simp only [processMessage, pmWithSession, pmInState, pmRules, pmSession,
          freshSession, hnew, hsf, hn]
        split <;> simp [mapGet_mapSet_self]

/-- Concrete two-state Bot for the C2 counterexample. -/
def c2Bot : Bot :=
  addState (addState (newBot "cx") "start" "Welcome"
    [{ event := "go", target := "other" }]) "other" "OtherEntry" []

/-- C2 counterexample: `c2Bot` is constructed with starting state `start`,
user `alice` takes the `go` transition, and then first-time user `bob`'s
lazily created session starts in `other`, not in the construction-time
starting state — fresh sessions are not independent of other users' earlier
`ProcessMessage` calls. -/
theorem processMessage_fresh_session_counterexample :
    c2Bot.currentState = "start" ∧
    (pmSession (pmNext (processMessage c2Bot "alice" "go" 0) "bob" "hi" 1) "bob").map
      UserSession.sessionState = some "other" ∧
    some "other" ≠ some "start" := by
  refine ⟨rfl, rfl, by decide⟩

/-- C2 witness: the amended fresh-session theorem applied at a concrete Bot. -/
theorem processMessage_fresh_session_witness :
    mapGet c2Bot.userSessions "bob" = none ∧
    (pmSession (processMessage c2Bot "bob" "hi" 4) "bob").map UserSession.sessionState =
      some c2Bot.currentState ∧
    (pmSession (processMessage c2Bot "bob" "hi" 4) "bob").map UserSession.lastActive =
      some 4 := by
  have h := processMessage_fresh_session c2Bot "bob" "hi" 4 rfl
    (fun state hstate => by
      have h0 : (some { name := "start", entryMessage := "Welcome"
                        transitions := [{ event := "go", target := "other" }]
                        rules := [] } : Option FsmState) = some state := by
        rw [← hstate]
        exact rfl
      injection h0 with h1
      rw [← h1]
      exact rfl)
  exact ⟨rfl, h.1, h.2⟩

/-- Responses of `pmTransition` always carry a `nil` Go error. -/
theorem pmTransition_err_none (b : Bot) (userID message : String) (session : UserSession)
    (t : Transition) (r : PMResult) (h : pmTransition b userID message session t = some r) :
    r.err = none := by
  simp only [pmTransition] at h
  split at h
  · exact absurd h (by simp)
  · injection h with h'
    subst h'
    rfl

/-- Responses of `pmRules` always carry a `nil` Go error. -/
theorem pmRules_err_none (b : Bot) (userID message : String) (session : UserSession)
    (state : FsmState) (r : PMResult) (h : pmRules b userID message session state = some r) :
    r.err = none := by
  simp only [pmRules] at h
  split at h <;>
    · injection h with h'
      subst h'
      rfl

/-- C10: `ProcessMessage` never returns a non-nil Go error: every return path
— state-not-found, transition taken, rule matched (including an error-rule
diversion), and nothing-matched — pairs its response string with `nil`;
failure visibility is delegated to the error-logger events. -/
theorem processMessage_err_none
    (b : Bot) (userID message : String) (now : Nat) (r : PMResult)
    (h : processMessage b userID message now = some r) : r.err = none := by
  have hw : ∀ (b' : Bot) (s0 : UserSession),
      pmWithSession b' userID message now s0 = some r → r.err = none := by
    intro b' s0 hw0
    simp only [pmWithSession] at hw0
    split at hw0
    · injection hw0 with h'
      subst h'
      rfl
    · simp only [pmInState] at hw0
      split at hw0
      · exact pmTransition_err_none _ _ _ _ _ _ hw0
      · exact pmRules_err_none _ _ _ _ _ _ hw0
  simp only [processMessage] at h
  split at h
  · exact hw _ _ h
  · exact hw _ _ h

/-- C10 witness: the nil-error theorem applied at a concrete call (the
default record carries a non-nil error, so the conclusion is not obtained
from the default). -/
theorem processMessage_err_none_witness :
    ((processMessage c2Bot "u" "anything" 3).getD
      { response := "", err := some "nonnil", bot := c2Bot, events := [] }).err = none :=
  processMessage_err_none c2Bot "u" "anything" 3 _ rfl

/-- C4: named capture groups.  A message matching a rule's pattern binds each
named group's captured text into the session's variable map under the group's
name (conjunct 3, for the group's last occurrence of that name, groups at
index 0 or with empty names being skipped exactly as the source skips them);
the bindings appear in the rendered response — the rule's template substituted
with the updated map (conjunct 1) — and are stored in the session (conjunct
2), so a subsequently matched rule of the same state for the same user renders
with a map that still contains them (conjunct 4). -/
theorem processMessage_named_groups
    (b : Bot) (userID msg1 msg2 : String) (n1 n2 : Nat) (s : UserSession)
    (state : FsmState) (r1 r2 : Rule) (m1 m2 : List String)
    (hs : mapGet b.userSessions userID = some s)
    (hstate : mapGet b.fsmStates s.sessionState = some state)
    (hrules : state.rules = [r1, r2])
    (hnt1 : state.transitions.find? (fun t => t.event == msg1) = none)
    (hnt2 : state.transitions.find? (fun t => t.event == msg2) = none)
    (hm11 : r1.pattern.findStringSubmatch msg1 = some m1)
    (hm21 : r2.pattern.findStringSubmatch msg1 = none)
    (hm12 : r1.pattern.findStringSubmatch msg2 = none)
    (hm22 : r2.pattern.findStringSubmatch msg2 = some m2)
    (ha1 : r1.actions = []) (ha2 : r2.actions = [])
    (he1 : r1.errorRules = []) (he2 : r2.errorRules = []) :
    pmResponse (processMessage b userID msg1 n1) =
      some (replaceVariables b.globalVars r1.respond
        (bindGroups m1 0 r1.pattern.subexpNames s.sessionVars)) ∧
    (pmSession (processMessage b userID msg1 n1) userID).map UserSession.sessionVars =
      some (bindGroups m1 0 r1.pattern.subexpNames s.sessionVars) ∧
    (∀ name i, r1.pattern.subexpNames.get? i = some name → 0 < i → name ≠ "" →
      (∀ j, i < j → r1.pattern.subexpNames.get? j ≠ some name) →
      mapGet (bindGroups m1 0 r1.pattern.subexpNames s.sessionVars) name =
        some (m1.getD i "")) ∧
    pmResponse (pmNext (processMessage b userID msg1 n1) userID msg2 n2) =
      some (replaceVariables b.globalVars r2.respond
        (bindGroups m2 0 r2.pattern.subexpNames
          (bindGroups m1 0 r1.pattern.subexpNames s.sessionVars))) := by
  refine ⟨?_, ?_, ?_, ?_⟩
  · simp [processMessage, pmWithSession, pmInState, pmRules, evalRule, runActions,
      pmResponse, hs, hstate, hrules, hnt1, hm11, hm21, ha1, he1]
  · simp [processMessage, pmWithSession, pmInState, pmRules, evalRule, runActions,
      pmSession, hs, hstate, hrules, hnt1, hm11, hm21, ha1, he1, mapGet_mapSet_self]
  · intro name i hi hpos hne hlast
    have h := bindGroups_get m1 name 0 i r1.pattern.subexpNames s.sessionVars hi hne
      (by omega) hlast
    simpa using h
  · simp [processMessage, pmWithSession, pmInState, pmRules, evalRule, runActions,
      pmResponse, pmNext, pmSession, hs, hstate, hrules, hnt1, hnt2, hm11, hm21,
      hm12, hm22, ha1, ha2, he1, he2, mapGet_mapSet_self]

/-- Concrete pattern for the C4 witness: two named groups `month`, `name`. -/
def c4re1 : Regexp :=
  { subexpNames := ["", "month", "name"]
    findStringSubmatch := fun s =>
      if s = "Month: January Name: Ann" then some [s, "January", "Ann"] else none }

/-- Concrete pattern for the C4 witness: one named group `x`. -/
def c4re2 : Regexp :=
  { subexpNames := ["", "x"]
    findStringSubmatch := fun s => if s = "X 42" then some [s, "42"] else none }

/-- First rule of the C4 witness. -/
def c4r1 : Rule :=
  { name := "r1", pattern := c4re1
    respond := "Thanks \x7b\x7bname\x7d\x7d for \x7b\x7bmonth\x7d\x7d"
    actions := [], errorRules := [] }

/-- Second rule of the C4 witness; its template also reads the first rule's
binding `name`. -/
def c4r2 : Rule :=
  { name := "r2", pattern := c4re2
    respond := "Got \x7b\x7bx\x7d\x7d recall \x7b\x7bname\x7d\x7d"
    actions := [], errorRules := [] }

/-- State of the C4 witness. -/
def c4State : FsmState :=
  { name := "update", entryMessage := "Provide data", transitions := []
    rules := [c4r1, c4r2] }

/-- Bot of the C4 witness: one user parked in `update`. -/
def c4Bot : Bot :=
  { newBot "w4" with
      fsmStates := [("update", c4State)]
      userSessions := [("u", { sessionVars := [], sessionState := "update"
                               lastActive := 0, errorRulesState := none })] }

/-- C4 witness: the named-group theorem applied at a concrete Bot; the first
rule's captures render its own response, and the second message's rule still
sees the binding `name` from the first call. -/
theorem processMessage_named_groups_witness :
    (mapGet c4Bot.userSessions "u" =
      some { sessionVars := [], sessionState := "update"
             lastActive := 0, errorRulesState := none }) ∧
    pmResponse (processMessage c4Bot "u" "Month: January Name: Ann" 1) =
      some "Thanks Ann for January" ∧
    pmResponse (pmNext (processMessage c4Bot "u" "Month: January Name: Ann" 1) "u" "X 42" 2) =
      some "Got 42 recall Ann" := by
  have h := processMessage_named_groups c4Bot "u" "Month: January Name: Ann" "X 42" 1 2
    { sessionVars := [], sessionState := "update", lastActive := 0, errorRulesState := none }
    c4State c4r1 c4r2 ["Month: January Name: Ann", "January", "Ann"] ["X 42", "42"]
    rfl rfl rfl rfl rfl rfl rfl rfl rfl rfl rfl rfl rfl
  refine ⟨rfl, ?_, ?_⟩
  · rw [h.1]
    rfl
  · rw [h.2.2.2]
    rfl

/-- C6: rule registration.  `AddRuleToState` fails with the pattern-compilation
error exactly when the pattern is invalid (conjuncts 1 and 4: compilation is
attempted first, and a compilation error is returned only when `compile`
fails), fails with the state-not-found error when the pattern is valid but the
state is unregistered (conjunct 2), and on success appends the freshly
compiled rule at the end of the state's rule list, preserving registration
order (conjunct 3).  Stored rules only ever hold patterns produced by a
successful compilation, so no invalid pattern can reach match time. -/
theorem addRuleToState_registration
    (compile : String → Except String Regexp) (b : Bot)
    (stateName name pattern respond : String)
    (actions : List Action) (errorRules : List CustomError) :
    (∀ e, compile pattern = Except.error e →
      addRuleToState compile b stateName name pattern respond actions errorRules =
        Except.error (AddRuleError.invalidPattern e)) ∧
    (∀ re, compile pattern = Except.ok re → mapGet b.fsmStates stateName = none →
      addRuleToState compile b stateName name pattern respond actions errorRules =
        Except.error (AddRuleError.stateNotFound stateName)) ∧
    (∀ re state, compile pattern = Except.ok re → mapGet b.fsmStates stateName = some state →
      addRuleToState compile b stateName name pattern respond actions errorRules =
        Except.ok { b with fsmStates := mapSet b.fsmStates stateName ({ state with rules := state.rules ++ [{ name := name, pattern := re, respond := respond, actions := actions, errorRules := errorRules }] }) }) ∧
    (∀ e, addRuleToState compile b stateName name pattern respond actions errorRules =
        Except.error (AddRuleError.invalidPattern e) →
      compile pattern = Except.error e) := by
  refine ⟨?_, ?_, ?_, ?_⟩
  · intro e he
    simp [addRuleToState, he]
  · intro re hre hmiss
    simp [addRuleToState, hre, hmiss]
  · intro re state hre hst
    simp [addRuleToState, hre, hst]
  · intro e hres
    cases hc : compile pattern with
    | error e' =>
      simp only [addRuleToState, hc] at hres
      injection hres with h'
      injection h' with h''
      rw [h'']
    | ok re =>
      simp only [addRuleToState, hc] at hres
      cases hst : mapGet b.fsmStates stateName with
      | none => rw [hst] at hres; simp at hres
      | some state => rw [hst] at hres; simp at hres

/-- Compilation stub for the C6 witness: only the pattern `"("` fails. -/
def c6compile (p : String) : Except String Regexp :=
  if p = "(" then Except.error "missing closing )"
  else Except.ok { subexpNames := [""], findStringSubmatch := fun _ => none }

/-- Bot of the C6 witness: state `start` already holds one rule, so the
appended rule's position is observable. -/
def c6Bot : Bot :=
  let b := addState (newBot "w6") "start" "Hello" []
  match addRuleToState c6compile b "start" "first" "a+" "RespA" [] [] with
  | Except.ok b' => b'
  | Except.error _ => b

/-- C6 witness: the registration theorem applied at concrete inputs — an
invalid pattern is rejected with the compilation error (even though the named
state also does not exist), a valid pattern on a missing state yields the
state-not-found error, and a successful registration appends after the
existing rule. -/
theorem addRuleToState_registration_witness :
    c6compile "(" = Except.error "missing closing )" ∧
    addRuleToState c6compile c6Bot "nope" "r" "(" "Resp" [] [] =
      Except.error (AddRuleError.invalidPattern "missing closing )") ∧
    addRuleToState c6compile c6Bot "nope" "r" "b+" "Resp" [] [] =
      Except.error (AddRuleError.stateNotFound "nope") ∧
    (match addRuleToState c6compile c6Bot "start" "second" "b+" "RespB" [] [] with
      | Except.ok b' => (mapGet b'.fsmStates "start").map (fun st => st.rules.map Rule.name)
      | Except.error _ => none) = some ["first", "second"] := by
  refine ⟨rfl, ?_, ?_, ?_⟩
  · exact (addRuleToState_registration c6compile c6Bot "nope" "r" "(" "Resp" [] []).1
      "missing closing )" rfl
  · exact (addRuleToState_registration c6compile c6Bot "nope" "r" "b+" "Resp" [] []).2.1
      { subexpNames := [""], findStringSubmatch := fun _ => none } rfl rfl
  · have h := (addRuleToState_registration c6compile c6Bot "start" "second" "b+" "RespB"
      [] []).2.2.1 { subexpNames := [""], findStringSubmatch := fun _ => none }
      ((c6Bot.fsmStates.head?.map Prod.snd).getD
        { name := "", entryMessage := "", transitions := [], rules := [] })
      rfl rfl
    rw [h]
    exact rfl

theorem mapGet_eq_none_of_not_mem {α : Type} (m : List (String × α)) (k : String)
    (h : k ∉ m.map Prod.fst) : mapGet m k = none := by
  induction m with
  | nil => rfl
  | cons p rest ih =>
    obtain ⟨pk, pv⟩ := p
    have hk : pk ≠ k := fun e => h (by simp [e])
    simp only [mapGet, if_neg hk]
    exact ih (fun e => h (by simp at e ⊢; exact Or.inr e))

theorem mapGet_filter {α : Type} (p : String × α → Bool) :
    ∀ (m : List (String × α)), (m.map Prod.fst).Nodup → ∀ (u : String),
      mapGet (m.filter p) u =
        (match mapGet m u with
          | some v => if p (u, v) then some v else none
          | none => none) := by
  intro m
  induction m with
  | nil => intro _ u; rfl
  | cons q rest ih =>
    intro hnd u
    obtain ⟨k, v⟩ := q
    have hnd' : (rest.map Prod.fst).Nodup := (List.nodup_cons.mp hnd).2
    have hknotin : k ∉ rest.map Prod.fst := (List.nodup_cons.mp hnd).1
    by_cases hk : k = u
    · subst hk
      cases hp : p (k, v) with
      | true =>
        simp [List.filter_cons, hp, mapGet]
      | false =>
        have hsub : rest.filter p ⊆ rest := fun x hx => List.mem_of_mem_filter hx
        have hnotin : k ∉ (rest.filter p).map Prod.fst := by
          intro hmem
          exact hknotin (List.map_subset Prod.fst hsub hmem)
        simp [List.filter_cons, hp, mapGet, mapGet_eq_none_of_not_mem _ _ hnotin]
    · have hne : ¬ k = u := hk
      cases hp : p (k, v) with
      | true => simp [List.filter_cons, hp, mapGet, hne, ih hnd' u]
      | false => simp [List.filter_cons, hp, mapGet, hne, ih hnd' u]

theorem cleanupSessions_until_stop (b : Bot) :
    ∀ (ticks : List Nat) (rest : List CleanupEvent),
      cleanupSessions b (ticks.map CleanupEvent.tick ++ CleanupEvent.stop :: rest) =
        ticks.foldl cleanupTick b := by
  intro ticks
  induction ticks generalizing b with
  | nil => intro rest; rfl
  | cons t ts ih => intro rest; exact ih (cleanupTick b t) rest

/-- C8: session eviction.  After one sweep tick at instant `now`, a session
whose inactivity span exceeds `SessionTimeout` is gone from the session store
and a session touched within the timeout window survives unchanged (conjunct
1; conjunct 2: the sweep adds no sessions); the sweep body runs once per timer
tick and the loop exits at the first stop signal, ignoring everything after it
(conjunct 3).  The real-time period of the ticks — `SessionCleanupInterval`
between consecutive wakeups, produced by `time.After(b.SessionCleanup)` — is
represented by the tick trace. -/
theorem cleanupSessions_sweep
    (b : Bot) (now : Nat) (u : String) (s : UserSession)
    (hnd : (b.userSessions.map Prod.fst).Nodup) :
    (mapGet b.userSessions u = some s →
      mapGet (cleanupTick b now).userSessions u =
        (if now - s.lastActive > b.sessionTimeout then none else some s)) ∧
    (mapGet b.userSessions u = none →
      mapGet (cleanupTick b now).userSessions u = none) ∧
    (∀ (ticks : List Nat) (rest : List CleanupEvent),
      cleanupSessions b (ticks.map CleanupEvent.tick ++ CleanupEvent.stop :: rest) =
        ticks.foldl cleanupTick b) := by
  refine ⟨?_, ?_, ?_⟩
  · intro hsome
    rw [cleanupTick, mapGet_filter _ b.userSessions hnd u, hsome]
    cases hcmp : decide (now - s.lastActive > b.sessionTimeout) with
    | true => simp_all
    | false => simp_all
  · intro hnone
    rw [cleanupTick, mapGet_filter _ b.userSessions hnd u, hnone]
  · exact cleanupSessions_until_stop b

/-- Bot of the C8 witness: timeout 50; `old` idle since instant 0, `fresh`
idle since instant 90; the sweep runs at instant 100. -/
def c8Bot : Bot :=
  { newBot "w8" with
      sessionTimeout := 50
      userSessions :=
        [("old", { sessionVars := [], sessionState := "start"
                   lastActive := 0, errorRulesState := none }),
         ("fresh", { sessionVars := [], sessionState := "start"
                     lastActive := 90, errorRulesState := none })] }

/-- C8 witness: the sweep theorem applied at a concrete store — the stale
session is evicted, the recently active one survives, and a tick followed by a
stop applies exactly one sweep. -/
theorem cleanupSessions_sweep_witness :
    (c8Bot.userSessions.map Prod.fst).Nodup ∧
    mapGet (cleanupTick c8Bot 100).userSessions "old" = none ∧
    mapGet (cleanupTick c8Bot 100).userSessions "fresh" =
      some { sessionVars := [], sessionState := "start"
             lastActive := 90, errorRulesState := none } ∧
    cleanupSessions c8Bot [CleanupEvent.tick 100, CleanupEvent.stop] =
      cleanupTick c8Bot 100 := by
  have hnd : (c8Bot.userSessions.map Prod.fst).Nodup := by decide
  refine ⟨hnd, ?_, ?_, ?_⟩
  · have h := (cleanupSessions_sweep c8Bot 100 "old"
      { sessionVars := [], sessionState := "start", lastActive := 0, errorRulesState := none }
      hnd).1 rfl
    simpa using h
  · have h := (cleanupSessions_sweep c8Bot 100 "fresh"
      { sessionVars := [], sessionState := "start", lastActive := 90, errorRulesState := none }
      hnd).1 rfl
    simpa using h
  · exact (cleanupSessions_sweep c8Bot 100 "x"
      { sessionVars := [], sessionState := "start", lastActive := 0, errorRulesState := none }
      hnd).2.2 [100] []

/-! ### Generic Transition Engine (`FSM` / `SendEvent`)

The repository ships tests (`fsm_test.go`) and callers (`example.go`,
`doc.go`) of the generic `FSM` engine, but the implementation file itself is
not among the sources; the definitions below are therefore modelled from the
specification (§4.2). -/

/-- Modelled from the spec: a Transition-Engine transition — a `(From, Event)`
key, a target state, an optional asynchronous action (represented by its
eventual outcome; the real-time timeout race is not modelled), and an optional
error-redirect state.  States and events are opaque comparable values,
represented as strings. -/
structure GTransition where
  fromState : String
  event : String
  toState : String
  actionResult : Option (Except String Unit)
  onError : Option String

/-- Modelled from the spec: the error outcomes of `SendEvent` — the current
state has no transitions at all, or the specific event is not registered. -/
inductive SendEventError where
  | invalidState (s : String)
  | invalidEvent (s e : String)
deriving DecidableEq

/-- Modelled from the spec: the generic FSM — a transition table and a current
state (a single value; this engine is not session-scoped). -/
structure GenFSM where
  currentState : String
  transitions : List GTransition

/-- Modelled from the spec: `GetCurrentState`. -/
def getCurrentState (m : GenFSM) : String := m.currentState

/-- Modelled from the spec: `SendEvent` (the implementation is absent from
the sources) — look up `(currentState, event)`; fail with `InvalidStateError`
when the current state has no transitions at all, with `InvalidEventError`
when the event is not registered for it, leaving the state unchanged in both
cases; on a valid no-action transition commit to the target synchronously; on
an action failure jump to `OnError` when set.  The Go method mutates the
receiver and returns only an error; here it returns the successor FSM paired
with the optional error. -/
def sendEvent (m : GenFSM) (event : String) : GenFSM × Option SendEventError :=
  if (m.transitions.filter (fun t => t.fromState == m.currentState)).isEmpty then
    (m, some (SendEventError.invalidState m.currentState))
  else
    match m.transitions.find? (fun t => t.fromState == m.currentState && t.event == event) with
    | none => (m, some (SendEventError.invalidEvent m.currentState event))
    | some t =>
      match t.actionResult with
      | none => ({ m with currentState := t.toState }, none)
      | some (Except.ok _) => ({ m with currentState := t.toState }, none)
      | some (Except.error _) =>
        match t.onError with
        | some e => ({ m with currentState := e }, none)
        | none => (m, none)

/-- C9: event rejection in the Transition Engine.  `SendEvent` with an event
that is not registered for the current state returns `InvalidEventError` — or
`InvalidStateError` when the current state has no transitions at all — and
leaves the current state unchanged; a registered no-action event commits the
state to the transition's target, observable via `GetCurrentState`. -/
theorem sendEvent_rejection (m : GenFSM) (event : String) :
    ((m.transitions.filter (fun t => t.fromState == m.currentState)).isEmpty = true →
      sendEvent m event = (m, some (SendEventError.invalidState m.currentState))) ∧
    ((m.transitions.filter (fun t => t.fromState == m.currentState)).isEmpty = false →
      m.transitions.find? (fun t => t.fromState == m.currentState && t.event == event) = none →
      sendEvent m event = (m, some (SendEventError.invalidEvent m.currentState event))) ∧
    (∀ t, (m.transitions.filter (fun t2 => t2.fromState == m.currentState)).isEmpty = false →
      m.transitions.find? (fun t2 => t2.fromState == m.currentState && t2.event == event) =
        some t →
      t.actionResult = none →
      sendEvent m event = ({ m with currentState := t.toState }, none) ∧
      getCurrentState (sendEvent m event).1 = t.toState) := by
  refine ⟨?_, ?_, ?_⟩
  · intro hempty
    simp [sendEvent, hempty]
  · intro hne hfind
    simp [sendEvent, hne, hfind]
  · intro t hne hfind hact
    constructor <;> simp [sendEvent, getCurrentState, hne, hfind, hact]

/-- FSM of the C9 witness: transitions `(A,X)→B` and `(B,Y)→C`, currently at
state `B` (as after `SendEvent(X)` from the initial state `A`). -/
def c9FsmAtB : GenFSM :=
  { currentState := "B"
    transitions := [{ fromState := "A", event := "X", toState := "B"
                      actionResult := none, onError := none },
                    { fromState := "B", event := "Y", toState := "C"
                      actionResult := none, onError := none }] }

/-- C9 witness: the rejection theorem applied at the scenario FSM —
`SendEvent(X)` at `A` commits to `B`; the unregistered `SendEvent(Z)` at `B`
returns `InvalidEventError` and leaves the state at `B`; and at a state with
no transitions at all the error is `InvalidStateError`. -/
theorem sendEvent_rejection_witness :
    sendEvent ({ c9FsmAtB with currentState := "A" }) "X" =
      ({ c9FsmAtB with currentState := "B" }, none) ∧
    sendEvent c9FsmAtB "Z" =
      (c9FsmAtB, some (SendEventError.invalidEvent "B" "Z")) ∧
    getCurrentState (sendEvent c9FsmAtB "Z").1 = "B" ∧
    sendEvent ({ c9FsmAtB with currentState := "D" }) "X" =
      ({ c9FsmAtB with currentState := "D" }, some (SendEventError.invalidState "D")) := by
  refine ⟨?_, ?_, ?_, ?_⟩
  · exact ((sendEvent_rejection ({ c9FsmAtB with currentState := "A" }) "X").2.2
      { fromState := "A", event := "X", toState := "B", actionResult := none, onError := none }
      rfl rfl rfl).1
  · exact (sendEvent_rejection c9FsmAtB "Z").2.1 rfl rfl
  · have h := (sendEvent_rejection c9FsmAtB "Z").2.1 rfl rfl
    rw [getCurrentState, h]
    rfl
  · exact (sendEvent_rejection ({ c9FsmAtB with currentState := "D" }) "X").1 rfl

end QontalkFsm
